import Mathlib

/-
  Shallow embedding of src/quiz/types.py (the pauldx/quiz query builder,
  validator and serializer).  Python classes used as GraphQL type
  descriptors become the inductive `GqlType`; runtime argument values
  become the inductive `Value`; the builder `SelectionSet` is the list of
  its selections; fallible Python code (raising exceptions) returns
  `Except` values whose error type mirrors the raised exception.
-/

namespace Quiz

/-- The built-in scalar descriptors (BUILTIN_SCALARS in types.py):
bool, int, float, str and the str subclass ID. -/
inductive ScalarKind where
  | boolS
  | intS
  | floatS
  | stringS
  | idS
  deriving DecidableEq

mutual

/-- A GraphQL type descriptor.  In types.py these are Python classes:
scalars are host classes, Enum and Object are generated subclasses of
types.Enum and types.Object, Interface subclasses carry field schemas,
Union subclasses carry member classes, and List and Nullable are the
generic wrapper classes of ListMeta and NullableMeta.  Object and
Interface carry their mapping from attribute name to FieldSchema. -/
inductive GqlType where
  | scalar (kind : ScalarKind)
  | enumT (name : String) (members : List String)
  | objectT (name : String) (fields : List (String × FieldSchema))
  | interfaceT (name : String) (fields : List (String × FieldSchema))
  | unionT (name : String) (members : List GqlType)
  | listT (arg : GqlType)
  | nullableT (arg : GqlType)

/-- FieldSchema (types.py lines 46-69): name, description, resolved type,
declared arguments, deprecation flag and reason.  The args mapping is
keyed by the InputValue name, so it is kept as a list of InputValue. -/
inductive FieldSchema where
  | mk (name : String) (desc : String) (type : GqlType)
      (args : List InputValue) (is_deprecated : Bool)
      (deprecation_reason : Option String)

/-- InputValue (types.py lines 423-427): one accepted argument. -/
inductive InputValue where
  | mk (name : String) (desc : String) (type : GqlType)

end

def FieldSchema.name : FieldSchema → String
  | .mk n _ _ _ _ _ => n

def FieldSchema.type : FieldSchema → GqlType
  | .mk _ _ t _ _ _ => t

def FieldSchema.args : FieldSchema → List InputValue
  | .mk _ _ _ a _ _ => a

def InputValue.name : InputValue → String
  | .mk n _ _ => n

def InputValue.type : InputValue → GqlType
  | .mk _ _ t => t

/-- The universe of runtime values supplied as field arguments.  `enumV`
is a member of a generated Enum class: it records the class name, the
member name and the member value (rendered by argument_as_gql).  Python
lists and tuples are distinct kinds, both sequences. -/
inductive Value where
  | null
  | str (s : String)
  | intV (n : Int)
  | boolV (b : Bool)
  | enumV (tyName : String) (memberName : String) (memberValue : String)
  | listV (elems : List Value)
  | tupleV (elems : List Value)

mutual

/-- Embedding of the isinstance checks used by _check_args: ListMeta,
NullableMeta and UnionMeta each override the instance check
(types.py lines 374-376, 391-392, 402-403); on scalar classes it is the
host instance check (a Python bool is also an instance of int, since
bool subclasses int); an enum member is an instance of exactly its own
Enum class.  No runtime value is an instance of an Object, Interface or
InputObject class. -/
def instanceOf : Value → GqlType → Bool
  | v, .listT t =>
      match v with
      | .listV xs => allInstance xs t
      | _ => false
  | v, .nullableT t =>
      match v with
      | .null => true
      | v => instanceOf v t
  | v, .unionT _ ms => anyInstance v ms
  | .boolV _, .scalar k => k == .boolS || k == .intS
  | .intV _, .scalar k => k == .intS
  | .str _, .scalar k => k == .stringS
  | .enumV ty _ _, .enumT n _ => ty == n
  | _, _ => false
termination_by v t => sizeOf v + sizeOf t

/-- all(isinstance(i, self.arg) for i in instance) -/
def allInstance : List Value → GqlType → Bool
  | [], _ => true
  | x :: xs, t => instanceOf x t && allInstance xs t
termination_by xs t => sizeOf xs + sizeOf t

/-- isinstance(instance, self.args): true when at least one member
class accepts the value. -/
def anyInstance : Value → List GqlType → Bool
  | _, [] => false
  | v, m :: ms => instanceOf v m || anyInstance v ms
termination_by v ms => sizeOf v + sizeOf ms

end

/-! ## The selection builder (SelectionSet and Field, types.py lines 77-183) -/

/-- A Field selection node (types.py lines 160-171): a name, the keyword
argument mapping (a FrozenDict, insertion ordered, distinct keys) and a
nested selection set.  A SelectionSet holds its selections as a tuple,
so it is embedded as the list of its Field selections.  (The builder
only ever places Field nodes inside a SelectionSet.) -/
inductive Field where
  | mk (name : String) (kwargs : List (String × Value)) (selection_set : List Field)

abbrev SelectionSet := List Field

def Field.name : Field → String
  | .mk n _ _ => n

def Field.kwargs : Field → List (String × Value)
  | .mk _ kw _ => kw

def Field.selection_set : Field → SelectionSet
  | .mk _ _ s => s

/-- target.replace(kwargs=FrozenDict(kwargs)): a copy of the field with
its argument mapping replaced. -/
def Field.replaceKwargs : Field → List (String × Value) → Field
  | .mk n _ s, kw => .mk n kw s

/-- target.replace(selection_set=selection_set): a copy of the field
with its nested selection set replaced. -/
def Field.replaceSelections : Field → SelectionSet → Field
  | .mk n kw _, s => .mk n kw s

/-- How builder operations fail: `builderError` is the quiz Error class
raised with a message; `assertionError` is a failing bare assert
statement (a host AssertionError, not a quiz Error). -/
inductive BuildFailure where
  | builderError (msg : String)
  | assertionError
  deriving DecidableEq

/-- Embedding of SelectionSet attribute access (types.py lines 94-95):
appends a bare Field(name) with default kwargs and selection set.  (The
embedding reads Python attribute access on the builder as the DSL field
access it implements; the class deliberately keeps its own attributes
dunder-named to avoid capture.) -/
def getattrS (s : SelectionSet) (name : String) : SelectionSet :=
  s ++ [Field.mk name [] []]

/-- Embedding of SelectionSet.__call__ (types.py lines 116-122): star
unpacking of the selection tuple raises ValueError when it is empty,
which is caught and re-raised as the quiz Error; otherwise the last
field has its kwargs replaced. -/
def callS (s : SelectionSet) (kwargs : List (String × Value)) :
    Except BuildFailure SelectionSet :=
  match s.getLast? with
  | none => .error (.builderError "cannot call empty field list")
  | some target => .ok (s.dropLast ++ [target.replaceKwargs kwargs])

/-- Embedding of SelectionSet.__getitem__ (types.py lines 98-110): star
unpacking of an empty selection tuple gives the quiz Error; then a bare
assert requires the given nested set to be non-empty (an AssertionError
when it is empty); otherwise the last field has its selection set
replaced. -/
def getitemS (s : SelectionSet) (child : SelectionSet) :
    Except BuildFailure SelectionSet :=
  match s.getLast? with
  | none => .error (.builderError "cannot select fields from empty field list")
  | some target =>
      if 1 ≤ child.length then
        .ok (s.dropLast ++ [target.replaceSelections child])
      else .error .assertionError

/-! ## Validation (types.py lines 296-340 and 430-440) -/

/-- The validation errors of types.py lines 205-246.  The `on` member
holds the type descriptor class the failing selection was checked
against. -/
inductive QuizError where
  | noSuchField (onType : GqlType) (name : String)
  | noSuchArgument (onType : GqlType) (field : FieldSchema) (name : String)
  | missingArgument (onType : GqlType) (field : FieldSchema) (name : String)
  | invalidArgumentType (onType : GqlType) (field : FieldSchema) (name : String)
      (value : Value)

/-- The field-schema attributes reachable by getattr on a type
descriptor class: Object and Interface classes carry FieldSchema class
attributes; scalar, enum, union, list and nullable classes carry
none. -/
def fieldMap : GqlType → List (String × FieldSchema)
  | .objectT _ fs => fs
  | .interfaceT _ fs => fs
  | _ => []

/-- getattr(parent, field.name): look the field name up among the
declared field schemas, None when absent (AttributeError). -/
def getattrType (t : GqlType) (name : String) : Option FieldSchema :=
  ((fieldMap t).find? (fun p => p.1 == name)).map (fun p => p.2)

/-- _unwrap_list_or_nullable (types.py lines 296-299): strip List and
Nullable wrappers repeatedly until a bare type remains. -/
def unwrapListOrNullable : GqlType → GqlType
  | .listT t => unwrapListOrNullable t
  | .nullableT t => unwrapListOrNullable t
  | t => t

/-- issubclass(param.type, Nullable): true exactly when the declared
argument type is a Nullable wrapper. -/
def isNullableType : GqlType → Bool
  | .nullableT _ => true
  | _ => false

/-- kwargs[name]: dict lookup among the supplied keyword arguments. -/
def lookupKwarg (kwargs : List (String × Value)) (n : String) : Option Value :=
  (kwargs.find? (fun p => p.1 == n)).map (fun p => p.2)

/-- kwargs.keys() - field.args.keys(): the supplied argument names that
are not declared.  (The Python set difference yields an arbitrary
element on pop; the embedding keeps supplied order and pops the
first.) -/
def invalidArgNames (kwargs : List (String × Value)) (args : List InputValue) :
    List String :=
  (kwargs.map (fun p => p.1)).filter (fun k => !(args.any (fun a => a.name == k)))

/-- The loop of _check_args (types.py lines 307-317) over the declared
arguments: an undeclared-and-unsupplied argument of non-Nullable type
raises MissingArgument, a supplied value failing the isinstance test
raises InvalidArgumentType, the first failure wins. -/
def checkArgsLoop (cls : GqlType) (field : FieldSchema)
    (kwargs : List (String × Value)) : List InputValue → Except QuizError Unit
  | [] => .ok ()
  | param :: rest =>
      match lookupKwarg kwargs param.name with
      | none =>
          if isNullableType param.type then checkArgsLoop cls field kwargs rest
          else .error (.missingArgument cls field param.name)
      | some value =>
          if instanceOf value param.type then checkArgsLoop cls field kwargs rest
          else .error (.invalidArgumentType cls field param.name value)

/-- _check_args (types.py lines 302-317): first the whole unknown-name
check, then the per-declared-argument loop. -/
def checkArgs (cls : GqlType) (field : FieldSchema)
    (kwargs : List (String × Value)) : Except QuizError Unit :=
  match invalidArgNames kwargs field.args with
  | n :: _ => .error (.noSuchArgument cls field n)
  | [] => checkArgsLoop cls field kwargs field.args

mutual

/-- _check_field (types.py lines 320-330): look the field name up on the
parent type (NoSuchField when absent), check its arguments, then check
each nested selection against the unwrapped field type. -/
def checkField (parent : GqlType) : Field → Except QuizError Unit
  | .mk name kwargs sels =>
      match getattrType parent name with
      | none => .error (.noSuchField parent name)
      | some schema =>
          match checkArgs parent schema kwargs with
          | .error e => .error e
          | .ok _ => checkFields (unwrapListOrNullable schema.type) sels

/-- for f in field.selection_set: _check_field(type, f) -/
def checkFields (t : GqlType) : List Field → Except QuizError Unit
  | [] => .ok ()
  | f :: rest =>
      match checkField t f with
      | .error e => .error e
      | .ok _ => checkFields t rest

end

/-- InlineFragment (types.py lines 257-269): a target type plus a
selection set, produced by validation. -/
structure InlineFragment where
  onType : GqlType
  selection_set : SelectionSet

/-- OperationType (types.py lines 272-275). -/
inductive OperationType where
  | query
  | mutation
  | subscription
  deriving DecidableEq

/-- Operation (types.py lines 278-293). -/
structure Operation where
  type : OperationType
  selection_set : SelectionSet

/-- ObjectMeta.__getitem__ (types.py lines 337-340): check every field
of the selection set against the class, then wrap class and set in an
InlineFragment. -/
def objectGetitem (cls : GqlType) (s : SelectionSet) :
    Except QuizError InlineFragment :=
  match checkFields cls s with
  | .error e => .error e
  | .ok _ => .ok ⟨cls, s⟩

/-- query (types.py lines 430-440): check every field of the selection
set against the query class, then wrap it in a QUERY operation. -/
def queryOp (s : SelectionSet) (cls : GqlType) : Except QuizError Operation :=
  match checkFields cls s with
  | .error e => .error e
  | .ok _ => .ok ⟨.query, s⟩

/-! ## Serialization (types.py lines 25-43, 130-135, 173-183) -/

/-- argument_as_gql (types.py lines 25-43): a singledispatch function.
Strings render wrapped in double quotes (escaping is an acknowledged
gap), ints as their decimal text, None as null, bools as true or false,
enum members as their value; every other kind of value has no
registered handler and raises TypeError, embedded as `none`. -/
def argument_as_gql : Value → Option String
  | .str s => some ("\"" ++ s ++ "\"")
  | .intV n => some (toString n)
  | .null => some "null"
  | .boolV b => some (if b then "true" else "false")
  | .enumV _ _ v => some v
  | .listV _ => none
  | .tupleV _ => none

/-- The characters str.strip removes: a line consisting solely of these
is left unprefixed by the default predicate of textwrap.indent. -/
def pyWhitespace (c : Char) : Bool :=
  c == ' ' || c == '\t' || c == '\n' || c == '\r' || c == '\x0b' || c == '\x0c'

/-- Split a character list at every newline (the line structure used by
textwrap.indent; the serializer only ever produces newline-separated
text). -/
def splitNewlines : List Char → List (List Char)
  | [] => [[]]
  | c :: cs =>
      let rest := splitNewlines cs
      if c = '\n' then [] :: rest
      else
        match rest with
        | r :: rs => (c :: r) :: rs
        | [] => [[c]]

/-- One line of textwrap.indent with the default predicate: the prefix
is added to lines that are non-blank after stripping. -/
def pyIndentLine (l : List Char) : String :=
  if l.all pyWhitespace then ⟨l⟩ else "  " ++ ⟨l⟩

/-- textwrap.indent(text, INDENT) with INDENT two spaces
(types.py line 14). -/
def pyIndent (s : String) : String :=
  String.intercalate "\n" ((splitNewlines s.toList).map pyIndentLine)

/-- The comma-separated argument list of Field.__gql__: each entry is
rendered as name, a colon and a space, and the argument literal; `none`
when some value has no GraphQL rendering (TypeError). -/
def renderArgs : List (String × Value) → Option (List String)
  | [] => some []
  | (k, v) :: rest =>
      match argument_as_gql v, renderArgs rest with
      | some g, some gs => some ((k ++ ": " ++ g) :: gs)
      | _, _ => none

/-- The brace-delimited block of SelectionSet.__gql__ built from the
already-rendered selections: a brace, a newline, the two-space indented
renderings joined by newlines, a newline and a closing brace. -/
def braceBlock (ss : List String) : String :=
  "\x7b\n" ++ String.intercalate "\n" (ss.map pyIndent) ++ "\n\x7d"

mutual

/-- Field.__gql__ (types.py lines 173-183): the field name, then the
parenthesized comma-separated argument list when kwargs is non-empty,
then a space and the selection-set block when the nested selection set
is non-empty. -/
def fieldGql : Field → Option String
  | .mk name kwargs sels =>
      match renderArgs kwargs, selectionsGql sels with
      | some parts, some ss =>
          some (name
            ++ (if kwargs.isEmpty then ""
                else "(" ++ String.intercalate ", " parts ++ ")")
            ++ (if sels.isEmpty then "" else " " ++ braceBlock ss))
      | _, _ => none

/-- The rendering of each selection of a set, in order. -/
def selectionsGql : List Field → Option (List String)
  | [] => some []
  | f :: fs =>
      match fieldGql f, selectionsGql fs with
      | some s, some ss => some (s :: ss)
      | _, _ => none

end

/-- SelectionSet.__gql__ (types.py lines 130-135): empty text for an
empty set, otherwise the brace-delimited block of the rendered
selections. -/
def selectionSetGql (sels : SelectionSet) : Option String :=
  if sels.isEmpty then some ""
  else (selectionsGql sels).map braceBlock

/-! ## The generic wrapper classes (types.py lines 367-397)

ListMeta.__getitem__ and NullableMeta.__getitem__ call the three-argument
type() constructor, so every subscription allocates a fresh class object.
Python class objects have no overridden equality here (neither metaclass
defines it), so comparing two classes compares their identities.  The
embedding gives every created class an explicit identity `oid`. -/

/-- The Python __name__ of a type descriptor class.  Wrapper classes are
created with the name List[arg] or Nullable[arg] built from the __name__
of the argument. -/
def typeName : GqlType → String
  | .scalar .boolS => "bool"
  | .scalar .intS => "int"
  | .scalar .floatS => "float"
  | .scalar .stringS => "str"
  | .scalar .idS => "ID"
  | .enumT n _ => n
  | .objectT n _ => n
  | .interfaceT n _ => n
  | .unionT n _ => n
  | .listT t => "List[" ++ typeName t ++ "]"
  | .nullableT t => "Nullable[" ++ typeName t ++ "]"

/-- Which wrapper base class a created wrapper class derives from. -/
inductive WrapperBase where
  | listB
  | nullableB
  deriving DecidableEq

/-- A class object returned by a wrapper subscription: its allocation
identity, its __name__, its base and its __arg__ attribute. -/
structure PyWrapperClass where
  oid : Nat
  clsName : String
  base : WrapperBase
  arg : GqlType

/-- ListMeta.__getitem__ (types.py lines 369-372): type() builds a fresh
subclass of List named after the argument, carrying it as __arg__.  The
oid argument is the identity of the newly allocated class object: two
separate subscriptions yield two different oids. -/
def listGetitem (oid : Nat) (arg : GqlType) : PyWrapperClass :=
  ⟨oid, "List[" ++ typeName arg ++ "]", .listB, arg⟩

/-- NullableMeta.__getitem__ (types.py lines 386-389): same, for
Nullable. -/
def nullableGetitem (oid : Nat) (arg : GqlType) : PyWrapperClass :=
  ⟨oid, "Nullable[" ++ typeName arg ++ "]", .nullableB, arg⟩

/-- The descriptor content of a created wrapper class: its base and its
__arg__. -/
def PyWrapperClass.desc (c : PyWrapperClass) : GqlType :=
  match c.base with
  | .listB => .listT c.arg
  | .nullableB => .nullableT c.arg

/-- Equality of class objects: type defines no structural equality, so
== between two classes is identity. -/
def pyClassEq (a b : PyWrapperClass) : Bool :=
  a.oid == b.oid

/-- The membership test of a created wrapper class on a value. -/
def wrapperInstanceCheck (c : PyWrapperClass) (v : Value) : Bool :=
  instanceOf v c.desc

/-- Follows the words of the spec, for comparison with the source
membership test of List: value is a sequence (in this value universe a
host list or tuple) and every element satisfies T. -/
def specListMember (v : Value) (t : GqlType) : Bool :=
  match v with
  | .listV xs => allInstance xs t
  | .tupleV xs => allInstance xs t
  | _ => false

/-! ## Declarative argument-validity predicates -/

/-- The supplied argument name is declared in the field argument
mapping. -/
def argDeclared (field : FieldSchema) (k : String) : Prop :=
  ∃ a ∈ field.args, a.name = k

/-- No argument violates the validation rules: every supplied name is
declared, every declared non-Nullable argument is supplied, and every
supplied value passes the membership test of its declared type. -/
def argsValid (field : FieldSchema) (kwargs : List (String × Value)) : Prop :=
  (∀ p ∈ kwargs, argDeclared field p.1)
  ∧ (∀ a ∈ field.args,
      (lookupKwarg kwargs a.name = none → isNullableType a.type = true)
      ∧ ∀ v, lookupKwarg kwargs a.name = some v → instanceOf v a.type = true)

/-! ## A concrete schema for witnesses (the Dog schema of the test
suite) -/

def CommandT : GqlType := .enumT "Command" ["SIT", "DOWN"]

def nameSchema : FieldSchema :=
  .mk "name" "" (.scalar .stringS) [] false none

def commandInput : InputValue := .mk "command" "the command" CommandT

def knowsCommandSchema : FieldSchema :=
  .mk "knows_command" "" (.scalar .boolS) [commandInput] false none

def atOtherHomesInput : InputValue :=
  .mk "at_other_homes" "" (.nullableT (.scalar .boolS))

def isHousetrainedSchema : FieldSchema :=
  .mk "is_housetrained" "" (.scalar .boolS) [atOtherHomesInput] false none

def barkVolumeSchema : FieldSchema :=
  .mk "bark_volume" "" (.scalar .intS) [] false none

def HumanT : GqlType := .objectT "Human" [("name", nameSchema)]

def ownerSchema : FieldSchema := .mk "owner" "" HumanT [] false none

def DogT : GqlType :=
  .objectT "Dog"
    [("name", nameSchema),
     ("is_housetrained", isHousetrainedSchema),
     ("bark_volume", barkVolumeSchema),
     ("knows_command", knowsCommandSchema),
     ("owner", ownerSchema)]

/-- The SIT member of the generated Command enum class (generated enum
members carry their name as their value). -/
def sitMember : Value := .enumV "Command" "SIT" "SIT"

/-- A leaf type is a scalar or an enum. -/
def isScalarOrEnum : GqlType → Bool
  | .scalar _ => true
  | .enumT _ _ => true
  | _ => false

/-- Modelled from the spec: the type graph builder (enum_as_type, a part
of the repository that is not under src/) creates every enum member with
its value equal to its name; the test suite asserts member.value == name
for every member it builds. -/
def enumMemberWellFormed : Value → Prop
  | .enumV _ nm vl => vl = nm
  | _ => True

/-! ## Helper lemmas -/

theorem allInstance_eq_true_iff (xs : List Value) (t : GqlType) :
    allInstance xs t = true ↔ ∀ x ∈ xs, instanceOf x t = true := by
  induction xs with
  | nil => simp [allInstance]
  | cons x xs ih => simp [allInstance, ih]

theorem anyInstance_eq_true_iff (v : Value) (ms : List GqlType) :
    anyInstance v ms = true ↔ ∃ m ∈ ms, instanceOf v m = true := by
  induction ms with
  | nil => simp [anyInstance]
  | cons m ms ih => simp [anyInstance, ih]

theorem unwrap_not_wrapper (t : GqlType) :
    ∀ u, unwrapListOrNullable t ≠ .listT u ∧ unwrapListOrNullable t ≠ .nullableT u :=
  match t with
  | .listT t => by simpa [unwrapListOrNullable] using unwrap_not_wrapper t
  | .nullableT t => by simpa [unwrapListOrNullable] using unwrap_not_wrapper t
  | .scalar _ => by simp [unwrapListOrNullable]
  | .enumT _ _ => by simp [unwrapListOrNullable]
  | .objectT _ _ => by simp [unwrapListOrNullable]
  | .interfaceT _ _ => by simp [unwrapListOrNullable]
  | .unionT _ _ => by simp [unwrapListOrNullable]

theorem fieldMap_of_scalarOrEnum (t : GqlType) (h : isScalarOrEnum t = true) :
    fieldMap t = [] := by
  cases t <;> simp_all [isScalarOrEnum, fieldMap]

theorem checkArgsLoop_ok_iff (cls : GqlType) (field : FieldSchema)
    (kwargs : List (String × Value)) (args : List InputValue) :
    checkArgsLoop cls field kwargs args = .ok () ↔
      ∀ a ∈ args, (lookupKwarg kwargs a.name = none → isNullableType a.type = true)
        ∧ ∀ v, lookupKwarg kwargs a.name = some v → instanceOf v a.type = true := by
  induction args with
  | nil => simp [checkArgsLoop]
  | cons a rest ih =>
      simp only [checkArgsLoop]
      cases h : lookupKwarg kwargs a.name with
      | none =>
          by_cases hn : isNullableType a.type = true
          · simp [hn, ih, h]
          · simp [hn, h]
      | some v =>
          by_cases hv : instanceOf v a.type = true
          · simp [hv, ih, h]
          · simp [hv, h]

theorem checkArgsLoop_missing (cls : GqlType) (field : FieldSchema)
    (kwargs : List (String × Value)) (args : List InputValue)
    (hwell : ∀ a ∈ args, ∀ v, lookupKwarg kwargs a.name = some v →
      instanceOf v a.type = true)
    (hmiss : ∃ a ∈ args, isNullableType a.type = false
      ∧ lookupKwarg kwargs a.name = none) :
    ∃ a ∈ args, isNullableType a.type = false ∧ lookupKwarg kwargs a.name = none
      ∧ checkArgsLoop cls field kwargs args
          = .error (.missingArgument cls field a.name) := by
  induction args with
  | nil => simp at hmiss
  | cons a rest ih =>
      cases h : lookupKwarg kwargs a.name with
      | none =>
          by_cases hn : isNullableType a.type = true
          · have hmiss' : ∃ b ∈ rest, isNullableType b.type = false
                ∧ lookupKwarg kwargs b.name = none := by
              rcases hmiss with ⟨b, hb, hbn, hbl⟩
              rcases List.mem_cons.mp hb with rfl | hbrest
              · rw [hn] at hbn
                exact absurd hbn (by simp)
              · exact ⟨b, hbrest, hbn, hbl⟩
            obtain ⟨b, hb, h1, h2, h3⟩ :=
              ih (fun x hx => hwell x (List.mem_cons_of_mem a hx)) hmiss'
            exact ⟨b, List.mem_cons_of_mem a hb, h1, h2,
              by simp [checkArgsLoop, h, hn, h3]⟩
          · have hn' : isNullableType a.type = false := by simpa using hn
            exact ⟨a, List.mem_cons_self a rest, hn', h,
              by simp [checkArgsLoop, h, hn']⟩
      | some v =>
          have hv : instanceOf v a.type = true :=
            hwell a (List.mem_cons_self a rest) v h
          have hmiss' : ∃ b ∈ rest, isNullableType b.type = false
              ∧ lookupKwarg kwargs b.name = none := by
            rcases hmiss with ⟨b, hb, hbn, hbl⟩
            rcases List.mem_cons.mp hb with rfl | hbrest
            · rw [h] at hbl
              exact absurd hbl (by simp)
            · exact ⟨b, hbrest, hbn, hbl⟩
          obtain ⟨b, hb, h1, h2, h3⟩ :=
            ih (fun x hx => hwell x (List.mem_cons_of_mem a hx)) hmiss'
          exact ⟨b, List.mem_cons_of_mem a hb, h1, h2,
            by simp [checkArgsLoop, h, hv, h3]⟩

theorem checkArgsLoop_invalid (cls : GqlType) (field : FieldSchema)
    (kwargs : List (String × Value)) (args : List InputValue)
    (hsupp : ∀ a ∈ args, lookupKwarg kwargs a.name = none →
      isNullableType a.type = true)
    (hbad : ∃ a ∈ args, ∃ v, lookupKwarg kwargs a.name = some v
      ∧ instanceOf v a.type = false) :
    ∃ a ∈ args, ∃ v, lookupKwarg kwargs a.name = some v
      ∧ instanceOf v a.type = false
      ∧ checkArgsLoop cls field kwargs args
          = .error (.invalidArgumentType cls field a.name v) := by
  induction args with
  | nil => simp at hbad
  | cons a rest ih =>
      cases h : lookupKwarg kwargs a.name with
      | none =>
          have hn : isNullableType a.type = true :=
            hsupp a (List.mem_cons_self a rest) h
          have hbad' : ∃ b ∈ rest, ∃ v, lookupKwarg kwargs b.name = some v
              ∧ instanceOf v b.type = false := by
            rcases hbad with ⟨b, hb, v, hbl, hbv⟩
            rcases List.mem_cons.mp hb with rfl | hbrest
            · rw [h] at hbl
              exact absurd hbl (by simp)
            · exact ⟨b, hbrest, v, hbl, hbv⟩
          obtain ⟨b, hb, v, h1, h2, h3⟩ :=
            ih (fun x hx => hsupp x (List.mem_cons_of_mem a hx)) hbad'
          exact ⟨b, List.mem_cons_of_mem a hb, v, h1, h2,
            by simp [checkArgsLoop, h, hn, h3]⟩
      | some v =>
          by_cases hv : instanceOf v a.type = true
          · have hbad' : ∃ b ∈ rest, ∃ w, lookupKwarg kwargs b.name = some w
                ∧ instanceOf w b.type = false := by
              rcases hbad with ⟨b, hb, w, hbl, hbv⟩
              rcases List.mem_cons.mp hb with rfl | hbrest
              · rw [h] at hbl
                obtain rfl : v = w := by injection hbl
                rw [hv] at hbv
                exact absurd hbv (by simp)
              · exact ⟨b, hbrest, w, hbl, hbv⟩
            obtain ⟨b, hb, w, h1, h2, h3⟩ :=
              ih (fun x hx => hsupp x (List.mem_cons_of_mem a hx)) hbad'
            exact ⟨b, List.mem_cons_of_mem a hb, w, h1, h2,
              by simp [checkArgsLoop, h, hv, h3]⟩
          · have hv' : instanceOf v a.type = false := by simpa using hv
            exact ⟨a, List.mem_cons_self a rest, v, h, hv',
              by simp [checkArgsLoop, h, hv']⟩

theorem invalidArgNames_nil_iff (kwargs : List (String × Value))
    (args : List InputValue) :
    invalidArgNames kwargs args = [] ↔ ∀ p ∈ kwargs, ∃ a ∈ args, a.name = p.1 := by
  simp [invalidArgNames, List.filter_eq_nil_iff]

theorem invalidArgNames_head (kwargs : List (String × Value))
    (args : List InputValue) (n : String) (t : List String)
    (h : invalidArgNames kwargs args = n :: t) :
    (∃ p ∈ kwargs, p.1 = n) ∧ ∀ a ∈ args, a.name ≠ n := by
  have hmem : n ∈ invalidArgNames kwargs args := by
    rw [h]
    exact List.mem_cons_self n t
  simp [invalidArgNames, List.mem_filter] at hmem
  obtain ⟨⟨p, hp⟩, h2⟩ := hmem
  exact ⟨⟨(n, p), hp, rfl⟩, fun a ha han => h2 a ha han⟩

/-- Shared between the unknown-argument conclusions: whenever some
supplied name is undeclared, checkArgs reports NoSuchArgument for one of
the undeclared supplied names. -/
theorem checkArgs_unknown_names (cls : GqlType) (field : FieldSchema)
    (kwargs : List (String × Value))
    (hunk : ∃ p ∈ kwargs, ¬ argDeclared field p.1) :
    ∃ n, checkArgs cls field kwargs = .error (.noSuchArgument cls field n)
      ∧ (∃ p ∈ kwargs, p.1 = n) ∧ ¬ argDeclared field n := by
  cases heq : invalidArgNames kwargs field.args with
  | nil =>
      rcases hunk with ⟨p, hp, hpd⟩
      exact absurd ((invalidArgNames_nil_iff kwargs field.args).mp heq p hp) hpd
  | cons n t =>
      obtain ⟨h1, h2⟩ := invalidArgNames_head kwargs field.args n t heq
      refine ⟨n, by simp [checkArgs, heq], h1, ?_⟩
      rintro ⟨a, ha, han⟩
      exact h2 a ha han

/-! ## Claim theorems -/

/-- Claim C4: builder operations are side-effect-free values computed
from the input set: attribute access appends a bare Field with empty
arguments and empty nested set (a one-element set when the input is
empty) and grows the length by one; on a non-empty set, call replaces
only the last field argument mapping and bracket-nesting replaces only
the last field nested selection set; the selections list is kept in
insertion order.  (The embedding is purely functional, so the input set
itself is never modified.) -/
theorem selectionSet_builder_ops (s : SelectionSet) (n : String)
    (kwargs : List (String × Value)) (child rest : SelectionSet) (target : Field) :
    getattrS s n = s ++ [Field.mk n [] []]
    ∧ (getattrS s n).length = s.length + 1
    ∧ getattrS [] n = [Field.mk n [] []]
    ∧ (s = rest ++ [target] →
        callS s kwargs = .ok (rest ++ [Field.mk target.name kwargs target.selection_set]))
    ∧ (s = rest ++ [target] → child ≠ [] →
        getitemS s child = .ok (rest ++ [Field.mk target.name target.kwargs child])) := by
  refine ⟨rfl, by simp [getattrS], rfl, ?_, ?_⟩
  · rintro rfl
    cases target with
    | mk tn tkw ts =>
        simp [callS, List.getLast?_concat, List.dropLast_concat, Field.replaceKwargs,
          Field.name, Field.selection_set]
  · rintro rfl hchild
    cases target with
    | mk tn tkw ts =>
        have hlen : 1 ≤ child.length := List.length_pos.mpr hchild
        simp [getitemS, List.getLast?_concat, List.dropLast_concat, hlen,
          Field.replaceSelections, Field.name, Field.kwargs]

/-- Witness for C4 at a concrete input: calling attaches the arguments
to the only field, bracket-nesting attaches the child set. -/
theorem selectionSet_builder_ops_witness :
    callS [Field.mk "foo" [] []] [("bla", Value.intV 4)]
      = .ok [Field.mk "foo" [("bla", Value.intV 4)] []]
    ∧ getitemS [Field.mk "foo" [] []] [Field.mk "bar" [] []]
      = .ok [Field.mk "foo" [] [Field.mk "bar" [] []]] :=
  ⟨(selectionSet_builder_ops [Field.mk "foo" [] []] "x" [("bla", Value.intV 4)]
      [] [] (Field.mk "foo" [] [])).2.2.2.1 rfl,
   (selectionSet_builder_ops [Field.mk "foo" [] []] "x" []
      [Field.mk "bar" [] []] [] (Field.mk "foo" [] [])).2.2.2.2 rfl
      (List.cons_ne_nil _ _)⟩

/-- Claim C5 counterexample: bracket-nesting a non-empty set with an
empty child SelectionSet fails with the AssertionError of the bare
assert statement, not with the quiz BuilderError. -/
theorem getitem_empty_child_counterexample :
    getitemS [Field.mk "foo" [] []] [] = .error .assertionError
    ∧ ∀ msg, getitemS [Field.mk "foo" [] []] [] ≠ .error (.builderError msg) := by
  refine ⟨rfl, ?_⟩
  intro msg h
  simp [getitemS] at h

/-- Claim C5 as amended: calling an empty SelectionSet raises
BuilderError, bracket-nesting an empty outer SelectionSet raises
BuilderError, and bracket-nesting a non-empty set with an empty child
SelectionSet fails with an assertion failure, not a BuilderError. -/
theorem builder_empty_errors (kwargs : List (String × Value)) (s child : SelectionSet) :
    callS [] kwargs = .error (.builderError "cannot call empty field list")
    ∧ getitemS [] child = .error (.builderError "cannot select fields from empty field list")
    ∧ (s ≠ [] → getitemS s [] = .error .assertionError) := by
  refine ⟨rfl, rfl, ?_⟩
  intro hs
  obtain ⟨a, ha⟩ := Option.isSome_iff_exists.mp (List.getLast?_isSome.mpr hs)
  simp [getitemS, ha]

/-- Witness for C5 (amended) at a concrete input. -/
theorem builder_empty_errors_witness :
    getitemS [Field.mk "foo" [] []] [] = .error .assertionError :=
  (builder_empty_errors [] [Field.mk "foo" [] []] []).2.2 (List.cons_ne_nil _ _)

/-- Claim C3: validation does not rewrite the tree and is idempotent:
a successful ObjectMeta getitem returns exactly the InlineFragment of
the class and the unchanged selection set, and validating the inner set
of the returned fragment against the same class succeeds with the
identical result; likewise the query operation wraps the unchanged set
in Operation(QUERY, set) and re-validates to the identical result. -/
theorem validate_unchanged_idempotent (cls : GqlType) (s : SelectionSet) :
    (∀ frag, objectGetitem cls s = .ok frag →
        frag = ⟨cls, s⟩ ∧ objectGetitem cls frag.selection_set = .ok frag)
    ∧ (∀ op, queryOp s cls = .ok op →
        op = ⟨.query, s⟩ ∧ queryOp op.selection_set cls = .ok op) := by
  constructor
  · intro frag h
    cases hc : checkFields cls s with
    | error e => simp [objectGetitem, hc] at h
    | ok u =>
        have hfrag : frag = ⟨cls, s⟩ := by
          simp [objectGetitem, hc] at h
          exact h.symm
        subst hfrag
        exact ⟨rfl, by simp [objectGetitem, hc]⟩
  · intro op h
    cases hc : checkFields cls s with
    | error e => simp [queryOp, hc] at h
    | ok u =>
        have hop : op = ⟨.query, s⟩ := by
          simp [queryOp, hc] at h
          exact h.symm
        subst hop
        exact ⟨rfl, by simp [queryOp, hc]⟩

/-- The selection set of the test-suite scenario: name plus
knows_command(command=SIT). -/
def dogSel : SelectionSet :=
  [Field.mk "name" [] [], Field.mk "knows_command" [("command", sitMember)] []]

/-- Witness for C3 at a concrete input: validating the Dog selection
set succeeds, returns it unchanged, and re-validation agrees. -/
theorem validate_unchanged_idempotent_witness :
    (⟨DogT, dogSel⟩ : InlineFragment) = ⟨DogT, dogSel⟩
    ∧ objectGetitem DogT (InlineFragment.selection_set ⟨DogT, dogSel⟩)
        = .ok ⟨DogT, dogSel⟩ :=
  (validate_unchanged_idempotent DogT dogSel).1 ⟨DogT, dogSel⟩
    (by simp [objectGetitem, checkFields, checkField, checkArgs, checkArgsLoop,
      invalidArgNames, DogT, dogSel, getattrType, fieldMap, nameSchema,
      knowsCommandSchema, commandInput, lookupKwarg, instanceOf, InputValue.name,
      InputValue.type, FieldSchema.args, FieldSchema.type, isNullableType,
      CommandT, sitMember, unwrapListOrNullable])

/-- Claim C2: field-lookup validation: a field name absent from the
current type field mapping fails with NoSuchField(currentType, name);
the current type for a nested selection is the declared field type
stripped of all List and Nullable wrappers (the stripped type never
keeps a wrapper at its head); and a nested sub-selection under a field
whose unwrapped type is a scalar or enum fails with NoSuchField naming
that leaf type and the first attempted sub-field. -/
theorem checkField_lookup_spec (parent : GqlType) (f : Field) :
    ((∀ p ∈ fieldMap parent, p.1 ≠ f.name) →
        checkField parent f = .error (.noSuchField parent f.name))
    ∧ (∀ t u : GqlType,
        unwrapListOrNullable t ≠ .listT u
        ∧ unwrapListOrNullable t ≠ .nullableT u
        ∧ unwrapListOrNullable (.listT t) = unwrapListOrNullable t
        ∧ unwrapListOrNullable (.nullableT t) = unwrapListOrNullable t)
    ∧ (∀ schema, getattrType parent f.name = some schema →
        checkArgs parent schema f.kwargs = .ok () →
        checkField parent f = checkFields (unwrapListOrNullable schema.type) f.selection_set)
    ∧ (∀ schema sub rest, getattrType parent f.name = some schema →
        checkArgs parent schema f.kwargs = .ok () →
        f.selection_set = sub :: rest →
        isScalarOrEnum (unwrapListOrNullable schema.type) = true →
        checkField parent f = .error (.noSuchField (unwrapListOrNullable schema.type) sub.name)) := by
  obtain ⟨fn, fkw, fsels⟩ := f
  refine ⟨?_, ?_, ?_, ?_⟩
  · intro habs
    have hnone : getattrType parent fn = none := by
      simp only [getattrType, Option.map_eq_none']
      rw [List.find?_eq_none]
      intro p hp
      simpa using habs p hp
    simp [checkField, hnone, Field.name]
  · intro t u
    exact ⟨(unwrap_not_wrapper t u).1, (unwrap_not_wrapper t u).2, rfl, rfl⟩
  · intro schema hget hargs
    simp [checkField, Field.name, Field.kwargs, Field.selection_set] at hget hargs ⊢
    simp [hget, hargs]
  · intro schema sub rest hget hargs hsels hleaf
    simp only [Field.selection_set] at hsels
    subst hsels
    simp only [Field.name, Field.kwargs] at hget hargs
    have hmap : fieldMap (unwrapListOrNullable schema.type) = [] :=
      fieldMap_of_scalarOrEnum _ hleaf
    obtain ⟨sn, skw, ssels⟩ := sub
    have hsub : getattrType (unwrapListOrNullable schema.type) sn = none := by
      simp [getattrType, hmap]
    simp [checkField, checkFields, hget, hargs, hsub, Field.name]

/-- Witness for C2 at a concrete input: a sub-selection under the
scalar-typed name field of Dog fails with NoSuchField on str. -/
theorem checkField_lookup_spec_witness :
    checkField DogT (Field.mk "name" [] [Field.mk "foo" [] []])
      = .error (.noSuchField (.scalar .stringS) "foo") :=
  (checkField_lookup_spec DogT (Field.mk "name" [] [Field.mk "foo" [] []])).2.2.2
    nameSchema (Field.mk "foo" [] []) [] rfl
    (by simp [checkArgs, checkArgsLoop, invalidArgNames, nameSchema,
      FieldSchema.args, Field.kwargs])
    rfl rfl

/-- Claim C8: argument literal rendering: a string renders wrapped in
double quotes, an integer as its decimal text, a boolean as true or
false, null as null, and an enum member (whose value the builder makes
equal to its name) as its bare unquoted name. -/
theorem argument_rendering (s : String) (n : Int) (b : Bool) (ty nm vl : String)
    (h : enumMemberWellFormed (.enumV ty nm vl)) :
    argument_as_gql (.str s) = some ("\"" ++ s ++ "\"")
    ∧ argument_as_gql (.intV n) = some (toString n)
    ∧ argument_as_gql (.boolV b) = some (if b then "true" else "false")
    ∧ argument_as_gql .null = some "null"
    ∧ argument_as_gql (.enumV ty nm vl) = some nm := by
  have hv : vl = nm := h
  subst hv
  exact ⟨rfl, rfl, rfl, rfl, rfl⟩

/-- Witness for C8 at concrete inputs. -/
theorem argument_rendering_witness :
    argument_as_gql (.str "my string!") = some "\"my string!\""
    ∧ argument_as_gql (.intV (-4)) = some "-4"
    ∧ argument_as_gql (.boolV true) = some (if true then "true" else "false")
    ∧ argument_as_gql .null = some "null"
    ∧ argument_as_gql (.enumV "Command" "SIT" "SIT") = some "SIT" :=
  argument_rendering "my string!" (-4) true "Command" "SIT" "SIT" rfl

/-- Claim C9: field serialization format: a field with no arguments and
an empty nested set renders to exactly its name; with a non-empty
nested set it renders to its name, the parenthesized comma-separated
argument list when arguments are present, a space, and a brace block
whose body is each child rendering on its own line indented by two
spaces (re-indented two further spaces at each deeper level by the same
rule); each argument entry renders as the name, a colon and a space,
and the literal. -/
theorem field_gql_format (name : String) (kwargs : List (String × Value))
    (sels : List Field) (k : String) (v : Value) :
    fieldGql (Field.mk name [] []) = some name
    ∧ (∀ parts ss, renderArgs kwargs = some parts → selectionsGql sels = some ss →
        sels ≠ [] →
        fieldGql (Field.mk name kwargs sels) =
          some (name
            ++ (if kwargs.isEmpty then ""
                else "(" ++ String.intercalate ", " parts ++ ")")
            ++ " " ++ "\x7b\n" ++ String.intercalate "\n" (ss.map pyIndent) ++ "\n\x7d"))
    ∧ (∀ g rest parts, argument_as_gql v = some g → renderArgs rest = some parts →
        renderArgs ((k, v) :: rest) = some ((k ++ ": " ++ g) :: parts)) := by
  refine ⟨?_, ?_, ?_⟩
  · simp [fieldGql, renderArgs, selectionsGql]
  · intro parts ss hargs hsels hne
    have hsne : sels.isEmpty = false := by
      cases sels with
      | nil => exact absurd rfl hne
      | cons a l => rfl
    have hlit : ∀ X : String, " " ++ ("\x7b\n" ++ X) = " \x7b\n" ++ X := by
      intro X
      rw [← String.append_assoc]
      rfl
    simp [fieldGql, hargs, hsels, hsne, braceBlock, String.append_assoc, hlit]
  · intro g rest parts hg hrest
    simp [renderArgs, hg, hrest]

/-- Witness for C9 at a concrete input: the nested owner selection of
the test suite renders with a two-space indented block. -/
theorem field_gql_format_witness :
    fieldGql (Field.mk "owner" [] [Field.mk "name" [] []])
      = some "owner \x7b\n  name\n\x7d" :=
  (field_gql_format "owner" [] [Field.mk "name" [] []] "q" (Value.intV 9)).2.1
    [] ["name"] rfl
    (by simp [selectionsGql, fieldGql, renderArgs])
    (List.cons_ne_nil _ _)

/-- Claim C6 counterexample: a host tuple whose single element satisfies
Int is a sequence whose elements each satisfy Int (the membership test
the spec words describe), yet the List[Int] membership test of the code
rejects it, because ListMeta checks isinstance(instance, list). -/
theorem list_membership_counterexample :
    specListMember (.tupleV [.intV 1]) (.scalar .intS) = true
    ∧ instanceOf (.tupleV [.intV 1]) (.listT (.scalar .intS)) = false := by
  constructor
  · simp [specListMember, allInstance, instanceOf]
  · simp [instanceOf]

/-- Claim C6 as amended: a value is an instance of List[T] iff it is a
host-language list (not any sequence: tuples are rejected) whose
elements each satisfy T; a value is an instance of Nullable[T] iff it is
null or satisfies T; a value is an instance of a Union iff it satisfies
at least one member type. -/
theorem wrapper_membership (v : Value) (t : GqlType) (nm : String)
    (ms : List GqlType) :
    (instanceOf v (.listT t) = true ↔
      ∃ xs, v = .listV xs ∧ ∀ x ∈ xs, instanceOf x t = true)
    ∧ (instanceOf v (.nullableT t) = true ↔ (v = .null ∨ instanceOf v t = true))
    ∧ (instanceOf v (.unionT nm ms) = true ↔ ∃ m ∈ ms, instanceOf v m = true) := by
  refine ⟨?_, ?_, ?_⟩
  · cases v <;> simp [instanceOf, allInstance_eq_true_iff]
  · cases v <;> simp [instanceOf]
  · cases v <;> simp [instanceOf, anyInstance_eq_true_iff]

/-- Claim C7 counterexample: two separate subscriptions List[int] and
List[int] (and likewise Nullable[bool] twice) build two distinct class
objects, and class comparison is identity, so they are not equal. -/
theorem wrapper_equality_counterexample :
    pyClassEq (listGetitem 0 (.scalar .intS)) (listGetitem 1 (.scalar .intS)) = false
    ∧ pyClassEq (nullableGetitem 0 (.scalar .boolS))
        (nullableGetitem 1 (.scalar .boolS)) = false :=
  ⟨rfl, rfl⟩

/-- Claim C7 as amended: two separately constructed wrapper classes of
the same shape (List of the same argument, or Nullable of the same
argument, at arbitrary nesting depth) agree in class name, base and
argument, and their membership tests behave identically, so they are
interchangeable for validation; but they are distinct class objects
compared by identity, so they are never equal. -/
theorem wrapper_same_shape (arg : GqlType) (i j : Nat) :
    ((listGetitem i arg).clsName = (listGetitem j arg).clsName
      ∧ (listGetitem i arg).desc = (listGetitem j arg).desc
      ∧ ∀ v, wrapperInstanceCheck (listGetitem i arg) v
          = wrapperInstanceCheck (listGetitem j arg) v)
    ∧ ((nullableGetitem i arg).clsName = (nullableGetitem j arg).clsName
      ∧ (nullableGetitem i arg).desc = (nullableGetitem j arg).desc
      ∧ ∀ v, wrapperInstanceCheck (nullableGetitem i arg) v
          = wrapperInstanceCheck (nullableGetitem j arg) v)
    ∧ (i ≠ j →
        pyClassEq (listGetitem i arg) (listGetitem j arg) = false
        ∧ pyClassEq (nullableGetitem i arg) (nullableGetitem j arg) = false) := by
  refine ⟨⟨rfl, rfl, fun _ => rfl⟩, ⟨rfl, rfl, fun _ => rfl⟩, fun h => ?_⟩
  constructor <;>
    simpa [pyClassEq, listGetitem, nullableGetitem] using h

/-- Witness for C7 (amended) at a concrete input. -/
theorem wrapper_same_shape_witness :
    pyClassEq (listGetitem 0 (.scalar .stringS)) (listGetitem 1 (.scalar .stringS)) = false
    ∧ pyClassEq (nullableGetitem 0 (.scalar .stringS))
        (nullableGetitem 1 (.scalar .stringS)) = false :=
  (wrapper_same_shape (.scalar .stringS) 0 1).2.2 (by decide)

/-- Claim C1: argument validation: a supplied name absent from the
declared argument mapping yields NoSuchArgument naming an undeclared
supplied name; when every supplied name is declared and every supplied
value is well typed, a declared non-Nullable argument that is not
supplied yields MissingArgument for such an argument; when every
supplied name is declared and every unsupplied declared argument is
Nullable, a supplied value failing the membership test of its declared
type yields InvalidArgumentType for such an argument and value; and
validation succeeds exactly when no argument violates these rules. -/
theorem checkArgs_validation (cls : GqlType) (field : FieldSchema)
    (kwargs : List (String × Value)) :
    ((∃ p ∈ kwargs, ¬ argDeclared field p.1) →
        ∃ n, checkArgs cls field kwargs = .error (.noSuchArgument cls field n)
          ∧ (∃ p ∈ kwargs, p.1 = n) ∧ ¬ argDeclared field n)
    ∧ ((∀ p ∈ kwargs, argDeclared field p.1) →
        (∀ a ∈ field.args, ∀ v, lookupKwarg kwargs a.name = some v →
            instanceOf v a.type = true) →
        (∃ a ∈ field.args, isNullableType a.type = false
            ∧ lookupKwarg kwargs a.name = none) →
        ∃ a ∈ field.args, isNullableType a.type = false
          ∧ lookupKwarg kwargs a.name = none
          ∧ checkArgs cls field kwargs = .error (.missingArgument cls field a.name))
    ∧ ((∀ p ∈ kwargs, argDeclared field p.1) →
        (∀ a ∈ field.args, lookupKwarg kwargs a.name = none →
            isNullableType a.type = true) →
        (∃ a ∈ field.args, ∃ v, lookupKwarg kwargs a.name = some v
            ∧ instanceOf v a.type = false) →
        ∃ a ∈ field.args, ∃ v, lookupKwarg kwargs a.name = some v
          ∧ instanceOf v a.type = false
          ∧ checkArgs cls field kwargs = .error (.invalidArgumentType cls field a.name v))
    ∧ (checkArgs cls field kwargs = .ok () ↔ argsValid field kwargs) := by
  have hdecl : invalidArgNames kwargs field.args = []
      ↔ ∀ p ∈ kwargs, argDeclared field p.1 :=
    invalidArgNames_nil_iff kwargs field.args
  refine ⟨checkArgs_unknown_names cls field kwargs, ?_, ?_, ?_⟩
  · intro hd hwell hmiss
    have heq : invalidArgNames kwargs field.args = [] := hdecl.mpr hd
    obtain ⟨a, ha, h1, h2, h3⟩ :=
      checkArgsLoop_missing cls field kwargs field.args hwell hmiss
    exact ⟨a, ha, h1, h2, by simp [checkArgs, heq, h3]⟩
  · intro hd hsupp hbad
    have heq : invalidArgNames kwargs field.args = [] := hdecl.mpr hd
    obtain ⟨a, ha, v, h1, h2, h3⟩ :=
      checkArgsLoop_invalid cls field kwargs field.args hsupp hbad
    exact ⟨a, ha, v, h1, h2, by simp [checkArgs, heq, h3]⟩
  · constructor
    · intro hok
      cases heq : invalidArgNames kwargs field.args with
      | cons n t => simp [checkArgs, heq] at hok
      | nil =>
          rw [checkArgs, heq] at hok
          exact ⟨hdecl.mp heq,
            (checkArgsLoop_ok_iff cls field kwargs field.args).mp hok⟩
    · rintro ⟨hd, hargs⟩
      have heq : invalidArgNames kwargs field.args = [] := hdecl.mpr hd
      rw [checkArgs, heq]
      exact (checkArgsLoop_ok_iff cls field kwargs field.args).mpr hargs

/-- Witness for C1 at a concrete input: omitting the required command
argument of knows_command fails with MissingArgument. -/
theorem checkArgs_validation_witness :
    ∃ a ∈ knowsCommandSchema.args, isNullableType a.type = false
      ∧ lookupKwarg [] a.name = none
      ∧ checkArgs DogT knowsCommandSchema []
          = .error (.missingArgument DogT knowsCommandSchema a.name) :=
  (checkArgs_validation DogT knowsCommandSchema []).2.1
    (by intro p hp; simp at hp)
    (by intro a ha v hv; simp [lookupKwarg] at hv)
    ⟨commandInput, by simp [knowsCommandSchema, FieldSchema.args],
      by simp [commandInput, InputValue.type, isNullableType, CommandT],
      by simp [lookupKwarg]⟩

/-- Claim C10: error precedence in argument validation: whenever the
supplied mapping holds a name that is not declared on the field and at
the same time omits a required non-Nullable declared argument or
supplies an ill-typed value for a declared argument, validation reports
NoSuchArgument: the unknown-name check completes before any
per-declared-argument check runs. -/
theorem checkArgs_unknown_precedence (cls : GqlType) (field : FieldSchema)
    (kwargs : List (String × Value))
    (hunk : ∃ p ∈ kwargs, ¬ argDeclared field p.1)
    (_hviol : (∃ a ∈ field.args, isNullableType a.type = false
        ∧ lookupKwarg kwargs a.name = none)
      ∨ (∃ a ∈ field.args, ∃ v, lookupKwarg kwargs a.name = some v
        ∧ instanceOf v a.type = false)) :
    ∃ n, checkArgs cls field kwargs = .error (.noSuchArgument cls field n)
      ∧ (∃ p ∈ kwargs, p.1 = n) ∧ ¬ argDeclared field n :=
  checkArgs_unknown_names cls field kwargs hunk

/-- Witness for C10 at a concrete input: a bogus argument on
knows_command that also omits the required command argument fails with
NoSuchArgument, not MissingArgument. -/
theorem checkArgs_unknown_precedence_witness :
    ∃ n, checkArgs DogT knowsCommandSchema [("bogus", Value.intV 1)]
        = .error (.noSuchArgument DogT knowsCommandSchema n)
      ∧ (∃ p ∈ [("bogus", Value.intV 1)], p.1 = n)
      ∧ ¬ argDeclared knowsCommandSchema n :=
  checkArgs_unknown_precedence DogT knowsCommandSchema [("bogus", Value.intV 1)]
    ⟨("bogus", Value.intV 1), by simp,
      by rintro ⟨a, ha, han⟩
         simp [knowsCommandSchema, FieldSchema.args] at ha
         subst ha
         simp [commandInput, InputValue.name] at han⟩
    (Or.inl ⟨commandInput, by simp [knowsCommandSchema, FieldSchema.args],
      by simp [commandInput, InputValue.type, isNullableType, CommandT],
      by simp [lookupKwarg, commandInput, InputValue.name]⟩)

end Quiz
